import Mathlib

/-!
Shallow embedding of the notification-aggregation client logic of the
`endrtech/crystal` repository, together with proofs of the specified
properties.

The embedded code:
* `ConversationNotificationBar` (src/unnamed/part_000): the pure
  aggregation routine `processNotifications`, the socket handler
  `handleConversationMarkRead`, and the optimistic click flow
  `handleConversationClick` with its single-slot guard
  `clickingConversation`, modelled as a step function `barStep` on an
  explicit component state.
* `TopNavigation` (src/components/navigation/top-navigation.tsx): the
  unread-counter updates `markAsRead` / `markAllAsRead`.
-/

namespace Crystal

/-- The nested `conversation` record of a notification. -/
structure Conversation where
  type : String
  name : Option String
  deriving DecidableEq

/-- The `triggeredBy` actor record of a notification. -/
structure TriggeredBy where
  name : String
  imageUrl : String
  deriving DecidableEq

/-- A notification record as consumed by `processNotifications`. -/
structure Notification where
  id : String
  type : String
  read : Bool
  conversationId : Option String
  conversation : Option Conversation
  triggeredBy : Option TriggeredBy
  profileId : String
  deriving DecidableEq

/-- The current user identity (Clerk `user`): `fullName` and `firstName`
are nullable, and the user object itself may be absent. -/
structure User where
  fullName : Option String
  firstName : Option String
  deriving DecidableEq

/-- The derived per-conversation summary (`ConversationParticipant`
interface in the source). -/
structure ConversationParticipant where
  conversationId : String
  profileId : String
  name : String
  imageUrl : String
  unreadCount : Nat
  conversationType : String
  deriving DecidableEq

/-- JavaScript truthiness of an optional string: `undefined` and the
empty string are falsy.  Models the `n.conversationId &&` filter test. -/
def truthyStr : Option String → Bool
  | none => false
  | some s => decide (s ≠ "")

/-- JavaScript `a || d` on an optional string with default `d`:
the default is used when the string is absent or empty.  Models
`notification.conversation.name || "Group Chat"`. -/
def jsOr : Option String → String → String
  | none, d => d
  | some s, d => if s = "" then d else s

/-- JavaScript strict inequality `s !== o` where `o : string | null |
undefined`: a string is never strictly equal to `null`/`undefined`.
Models `triggeredBy.name !== user?.fullName`. -/
def jsStrNe (s : String) : Option String → Bool
  | none => true
  | some t => decide (s ≠ t)

/-- The filter predicate of `processNotifications`:
`n.conversationId && !n.read && n.type === "MESSAGE"`. -/
def qualifies (n : Notification) : Bool :=
  truthyStr n.conversationId && !n.read && decide (n.type = "MESSAGE")

/-- The branch test `notification.conversation?.type === "GROUP_MESSAGE"`
(optional chaining: an absent conversation falls to the direct branch). -/
def isGroupNotif (n : Notification) : Bool :=
  match n.conversation with
  | some c => decide (c.type = "GROUP_MESSAGE")
  | none => false

/-- Display name of a group summary:
`notification.conversation.name || "Group Chat"`. -/
def groupName (n : Notification) : String :=
  match n.conversation with
  | some c => jsOr c.name "Group Chat"
  | none => "Group Chat"

/-- `conversationMap.get(conversationId) !== undefined`: whether the
insertion-ordered map already holds a summary for this key. -/
def containsKey (cid : String) (l : List ConversationParticipant) : Bool :=
  l.any fun p => decide (p.conversationId = cid)

/-- `existing.unreadCount += 1`: in-place increment of the summary stored
under `cid`; the map's iteration order is unchanged. -/
def bumpUnread (cid : String) : List ConversationParticipant → List ConversationParticipant
  | [] => []
  | p :: ps =>
    if p.conversationId = cid then
      { p with unreadCount := p.unreadCount + 1 } :: ps
    else
      p :: bumpUnread cid ps

/-- The fresh summary created on a group notification's first
occurrence: no owning profile, conversation display name, no avatar. -/
def groupEntry (cid : String) (n : Notification) : ConversationParticipant :=
  { conversationId := cid, profileId := "", name := groupName n,
    imageUrl := "", unreadCount := 1, conversationType := "GROUP_MESSAGE" }

/-- The fresh summary created on a direct notification's first
occurrence: the sender's profile id, name and avatar. -/
def directEntry (cid : String) (n : Notification) (t : TriggeredBy) :
    ConversationParticipant :=
  { conversationId := cid, profileId := n.profileId, name := t.name,
    imageUrl := t.imageUrl, unreadCount := 1, conversationType := "DIRECT_MESSAGE" }

/-- One iteration of the `forEach` body of `processNotifications`: the
insertion-ordered map is represented as a list in insertion order. -/
def insertNotification (user : Option User) (acc : List ConversationParticipant)
    (n : Notification) : List ConversationParticipant :=
  match n.conversationId with
  | none => acc
  | some conversationId =>
    if isGroupNotif n then
      if containsKey conversationId acc then
        bumpUnread conversationId acc
      else
        acc ++ [groupEntry conversationId n]
    else
      match n.triggeredBy with
      | none => acc
      | some t =>
        if jsStrNe t.name (Option.bind user User.fullName)
            && jsStrNe t.name (Option.bind user User.firstName) then
          if containsKey conversationId acc then
            bumpUnread conversationId acc
          else
            acc ++ [directEntry conversationId n t]
        else acc

/-- `processNotifications`: filter to unread conversation messages, then
aggregate per conversation in an insertion-ordered map, and return the
map's values in insertion order (`Array.from(conversationMap.values())`). -/
def processNotifications (notifications : List Notification)
    (user : Option User) : List ConversationParticipant :=
  (notifications.filter qualifies).foldl (insertNotification user) []

/-- The `conversation:marked-as-read` socket handler:
`prev.filter(p => p.conversationId !== data.conversationId)`. -/
def handleConversationMarkRead (conversationId : String)
    (prev : List ConversationParticipant) : List ConversationParticipant :=
  prev.filter fun p => decide (p.conversationId ≠ conversationId)

/-- State of the `ConversationNotificationBar` component relevant to the
click flow, plus bookkeeping of the environment:
`participants` and `clicking` (`clickingConversation`) are the two React
state cells; `pending` records the conversation ids of outstanding
mark-read requests in submission order; `submitted` logs every submitted
request; `navigations` logs every `router.push` performed. -/
structure BarState where
  participants : List ConversationParticipant
  clicking : Option String
  pending : List String
  submitted : List String
  navigations : List String
  deriving DecidableEq

/-- Events interleaved on the event loop: a user click on a conversation
(the synchronous prefix of `handleConversationClick` up to the `fetch`),
and the settlement of an outstanding mark-read request with success
(`response.ok`, then `router.push`, then `finally`) or failure (network
error or thrown non-ok status: `catch` reruns `processNotifications`,
then `finally`). -/
inductive BarEv where
  | click (cid : String)
  | settleOk (cid : String)
  | settleFail (cid : String)
  deriving DecidableEq

/-- One step of the click flow.  `notifications`/`user` are the
aggregation inputs current at the step, used by the failure path's
`processNotifications()` rerun.  A settle event is only meaningful for a
conversation with an outstanding request (`cid ∈ pending`); otherwise it
is ignored.  The `finally` clause sets `clickingConversation` to `null`
unconditionally whenever a request settles. -/
def barStep (notifications : List Notification) (user : Option User)
    (s : BarState) : BarEv → BarState
  | .click cid =>
    if s.clicking = some cid then s
    else
      { s with
        clicking := some cid,
        participants := s.participants.filter fun p => decide (p.conversationId ≠ cid),
        pending := s.pending ++ [cid],
        submitted := s.submitted ++ [cid] }
  | .settleOk cid =>
    if cid ∈ s.pending then
      { s with
        pending := s.pending.erase cid,
        navigations := s.navigations ++ [cid],
        clicking := none }
    else s
  | .settleFail cid =>
    if cid ∈ s.pending then
      { s with
        pending := s.pending.erase cid,
        participants := processNotifications notifications user,
        clicking := none }
    else s

/-- Run of the click flow over a list of events. -/
def barRun (notifications : List Notification) (user : Option User)
    (s : BarState) (es : List BarEv) : BarState :=
  es.foldl (barStep notifications user) s

/-- Component state right after mount, before any click. -/
def barInit : BarState :=
  { participants := [], clicking := none, pending := [],
    submitted := [], navigations := [] }

/-- `markAsRead` counter update of `TopNavigation`:
`setUnreadCount(prev => Math.max(0, prev - 1))`. -/
def markAsRead (unreadCount : Int) : Int :=
  max 0 (unreadCount - 1)

/-- `markAllAsRead` counter update of `TopNavigation`:
`setUnreadCount(0)`. -/
def markAllAsRead (_ : Int) : Int :=
  0

/-- A call in the notification dropdown: mark one notification read, or
mark all read. -/
inductive DropdownOp where
  | markOne
  | markAll
  deriving DecidableEq

/-- Apply one dropdown call to the unread counter. -/
def dropdownApply (c : Int) : DropdownOp → Int
  | .markOne => markAsRead c
  | .markAll => markAllAsRead c

/-- Apply a sequence of dropdown calls to the unread counter. -/
def dropdownRun (c : Int) (ops : List DropdownOp) : Int :=
  ops.foldl dropdownApply c

/-- Key of a summary. -/
def keyCP (p : ConversationParticipant) : String :=
  p.conversationId

/-- Key of a notification that survived the filter. -/
def keyOf (n : Notification) : String :=
  n.conversationId.getD ""

/-- Whether `processNotifications`'s direct-message branch includes the
notification: `triggeredBy` present and its name strictly unequal to the
current user's full name and first name. -/
def directIncluded (user : Option User) (n : Notification) : Bool :=
  match n.triggeredBy with
  | none => false
  | some t =>
    jsStrNe t.name (Option.bind user User.fullName)
      && jsStrNe t.name (Option.bind user User.firstName)

/-- Whether a notification contributes to the aggregation result: it
survives the filter and its branch accepts it. -/
def contributes (user : Option User) (n : Notification) : Bool :=
  qualifies n && (isGroupNotif n || directIncluded user n)

/-- Insert a key into an insertion-ordered key list, keeping the first
occurrence's position. -/
def insertKey (acc : List String) (k : String) : List String :=
  if k ∈ acc then acc else acc ++ [k]

/-- First-occurrence deduplication of a key list, in input order. -/
def firstOccKeys (ks : List String) : List String :=
  ks.foldl insertKey []

/-- Demo user for concrete witnesses. -/
def demoUser : User :=
  { fullName := some "Alice Smith", firstName := some "Alice" }

/-- Demo group conversation. -/
def demoConvG : Conversation :=
  { type := "GROUP_MESSAGE", name := some "Team" }

/-- Demo unread group message notification. -/
def demoG1 : Notification :=
  { id := "n1", type := "MESSAGE", read := false, conversationId := some "c1",
    conversation := some demoConvG, triggeredBy := none, profileId := "p1" }

/-- Second demo unread group message in the same conversation. -/
def demoG2 : Notification :=
  { demoG1 with id := "n2" }

/-- Demo actor record equal in name to the demo user's first name. -/
def demoSelfTrig : TriggeredBy :=
  { name := "Alice", imageUrl := "ua" }

/-- Demo direct message triggered by the current user. -/
def demoSelf : Notification :=
  { id := "n3", type := "MESSAGE", read := false, conversationId := some "c2",
    conversation := none,
    triggeredBy := some demoSelfTrig, profileId := "p2" }

/-- Demo direct message from another user. -/
def demoBob : Notification :=
  { id := "n4", type := "MESSAGE", read := false, conversationId := some "c2",
    conversation := none,
    triggeredBy := some { name := "Bob", imageUrl := "ub" }, profileId := "p3" }

/-- Demo notification that is already read. -/
def demoRead : Notification :=
  { demoBob with id := "n5", read := true }

/-- Demo notification list. -/
def demoNotifs : List Notification :=
  [demoG1, demoG2, demoSelf, demoBob]

/-- Demo summary list. -/
def demoParts : List ConversationParticipant :=
  processNotifications demoNotifs (some demoUser)

/-- The group summary the demo list aggregates for conversation c1. -/
def demoPart : ConversationParticipant :=
  { conversationId := "c1", profileId := "", name := "Team", imageUrl := "",
    unreadCount := 2, conversationType := "GROUP_MESSAGE" }

/-- Trace exercising the click guard: open conversation `a`, then open
conversation `b` while `a`'s request is still outstanding. -/
def c3Trace : List BarEv :=
  [BarEv.click "a", BarEv.click "b"]

/-- State reached after `c3Trace` from the initial state. -/
def c3State : BarState :=
  barRun [] none barInit c3Trace

/-- State right after a first click on conversation `a`. -/
def c3WitState : BarState :=
  barStep [] none barInit (BarEv.click "a")

/-- Incrementing a summary's count keeps the key sequence unchanged. -/
theorem bumpUnread_map_key (cid : String) (l : List ConversationParticipant) :
    (bumpUnread cid l).map keyCP = l.map keyCP := by
  induction l with
  | nil => rfl
  | cons p ps ih =>
    by_cases h : p.conversationId = cid
    · simp [bumpUnread, h, keyCP]
    · simp [bumpUnread, h, keyCP, ih]

/-- Map lookup succeeds exactly when the key occurs in the key sequence. -/
theorem containsKey_iff (cid : String) (l : List ConversationParticipant) :
    containsKey cid l = true ↔ cid ∈ l.map keyCP := by
  simp [containsKey, List.any_eq_true, List.mem_map, keyCP]

/-- Incrementing preserves positivity of all counts. -/
theorem bumpUnread_pos (cid : String) (l : List ConversationParticipant)
    (h : ∀ p ∈ l, 1 ≤ p.unreadCount) :
    ∀ p ∈ bumpUnread cid l, 1 ≤ p.unreadCount := by
  induction l with
  | nil => simp [bumpUnread]
  | cons q qs ih =>
    by_cases hq : q.conversationId = cid
    · simp only [bumpUnread, if_pos hq]
      intro p hp
      rcases List.mem_cons.mp hp with h1 | h2
      · subst h1; simp
      · exact h p (List.mem_cons_of_mem _ h2)
    · simp only [bumpUnread, if_neg hq]
      intro p hp
      rcases List.mem_cons.mp hp with h1 | h2
      · subst h1; exact h p (List.mem_cons_self _ _)
      · exact ih (fun r hr => h r (List.mem_cons_of_mem _ hr)) p h2

/-- A non-group notification that the direct branch rejects leaves the
map unchanged. -/
theorem insertNotification_skip (user : Option User)
    (acc : List ConversationParticipant) (n : Notification)
    (hng : isGroupNotif n = false) (hni : directIncluded user n = false) :
    insertNotification user acc n = acc := by
  cases hc : n.conversationId with
  | none => simp [insertNotification, hc]
  | some cid =>
    cases ht : n.triggeredBy with
    | none => simp [insertNotification, hc, hng, ht]
    | some t =>
      have hb : (jsStrNe t.name (Option.bind user User.fullName)
          && jsStrNe t.name (Option.bind user User.firstName)) = false := by
        simpa [directIncluded, ht] using hni
      simp [insertNotification, hc, hng, ht, hb]

/-- The map after one insertion is the old map, an increment of it, or
the old map extended with one fresh summary of count 1. -/
theorem insertNotification_eq (user : Option User)
    (acc : List ConversationParticipant) (n : Notification) :
    insertNotification user acc n = acc
    ∨ (∃ cid, insertNotification user acc n = bumpUnread cid acc)
    ∨ (∃ q, q.unreadCount = 1 ∧ insertNotification user acc n = acc ++ [q]) := by
  cases hc : n.conversationId with
  | none => exact Or.inl (by simp [insertNotification, hc])
  | some cid =>
    by_cases hg : isGroupNotif n = true
    · by_cases hk : containsKey cid acc = true
      · exact Or.inr (Or.inl ⟨cid, by simp [insertNotification, hc, hg, hk]⟩)
      · refine Or.inr (Or.inr ⟨groupEntry cid n, rfl, ?_⟩)
        simp [insertNotification, hc, hg, hk]
    · cases ht : n.triggeredBy with
      | none =>
        exact Or.inl (by simp [insertNotification, hc, hg, ht])
      | some t =>
        by_cases hi : (jsStrNe t.name (Option.bind user User.fullName)
            && jsStrNe t.name (Option.bind user User.firstName)) = true
        · by_cases hk : containsKey cid acc = true
          · exact Or.inr (Or.inl ⟨cid, by simp [insertNotification, hc, hg, ht, hi, hk]⟩)
          · refine Or.inr (Or.inr ⟨directEntry cid n t, rfl, ?_⟩)
            simp [insertNotification, hc, hg, ht, hi, hk]
        · exact Or.inl (by simp [insertNotification, hc, hg, ht, hi])

/-- One insertion preserves positivity of all counts. -/
theorem insertNotification_pos (user : Option User)
    (acc : List ConversationParticipant) (n : Notification)
    (h : ∀ p ∈ acc, 1 ≤ p.unreadCount) :
    ∀ p ∈ insertNotification user acc n, 1 ≤ p.unreadCount := by
  rcases insertNotification_eq user acc n with he | ⟨cid, he⟩ | ⟨q, hq1, he⟩
  · rw [he]; exact h
  · rw [he]; exact bumpUnread_pos cid acc h
  · rw [he]
    intro p hp
    rcases List.mem_append.mp hp with h1 | h2
    · exact h p h1
    · rw [List.mem_singleton.mp h2, hq1]

/-- Folding insertions preserves positivity of all counts. -/
theorem foldl_insert_pos (user : Option User) (m : List Notification)
    (acc : List ConversationParticipant) (h : ∀ p ∈ acc, 1 ≤ p.unreadCount) :
    ∀ p ∈ m.foldl (insertNotification user) acc, 1 ≤ p.unreadCount := by
  induction m generalizing acc with
  | nil => exact h
  | cons n ns ih => exact ih _ (insertNotification_pos user acc n h)

/-- On the key sequence, an insertion of a filtered-in notification acts
as a first-occurrence key insertion when its branch accepts it and as the
identity otherwise. -/
theorem insertNotification_map_key (user : Option User)
    (acc : List ConversationParticipant) (n : Notification)
    (hq : qualifies n = true) :
    (insertNotification user acc n).map keyCP =
      if isGroupNotif n || directIncluded user n then
        insertKey (acc.map keyCP) (keyOf n)
      else acc.map keyCP := by
  obtain ⟨cid, hc⟩ : ∃ cid, n.conversationId = some cid := by
    cases hcc : n.conversationId with
    | none => exact absurd hq (by simp [qualifies, truthyStr, hcc])
    | some c => exact ⟨c, rfl⟩
  have hkey : keyOf n = cid := by simp [keyOf, hc]
  by_cases hg : isGroupNotif n = true
  · by_cases hk : containsKey cid acc = true
    · have hmem : cid ∈ acc.map keyCP := (containsKey_iff cid acc).mp hk
      simp [insertNotification, hc, hg, hk, insertKey, hmem, hkey, bumpUnread_map_key]
    · have hmem : cid ∉ acc.map keyCP := fun hm => hk ((containsKey_iff cid acc).mpr hm)
      simp [insertNotification, hc, hg, hk, insertKey, hmem, hkey, keyCP, groupEntry]
  · cases ht : n.triggeredBy with
    | none =>
      simp [insertNotification, hc, hg, ht, directIncluded]
    | some t =>
      by_cases hi : (jsStrNe t.name (Option.bind user User.fullName)
          && jsStrNe t.name (Option.bind user User.firstName)) = true
      · have hdi : directIncluded user n = true := by simp [directIncluded, ht, hi]
        by_cases hk : containsKey cid acc = true
        · have hmem : cid ∈ acc.map keyCP := (containsKey_iff cid acc).mp hk
          simp [insertNotification, hc, hg, ht, hi, hk, hdi, insertKey, hmem, hkey,
            bumpUnread_map_key]
        · have hmem : cid ∉ acc.map keyCP := fun hm => hk ((containsKey_iff cid acc).mpr hm)
          simp [insertNotification, hc, hg, ht, hi, hk, hdi, insertKey, hmem, hkey,
            keyCP, directEntry]
      · have hdi : directIncluded user n = false := by
          simpa [directIncluded, ht] using hi
        simp [insertNotification, hc, hg, ht, hi, hdi]

/-- Folding the aggregation over the filtered list acts on key sequences
as folding first-occurrence key insertions over the keys of the
contributing notifications. -/
theorem foldl_insert_map_key (user : Option User) (l : List Notification)
    (acc : List ConversationParticipant) :
    ((l.filter qualifies).foldl (insertNotification user) acc).map keyCP =
      ((l.filter (contributes user)).map keyOf).foldl insertKey (acc.map keyCP) := by
  induction l generalizing acc with
  | nil => rfl
  | cons n ns ih =>
    by_cases hq : qualifies n = true
    · by_cases hb : (isGroupNotif n || directIncluded user n) = true
      · have hcon : contributes user n = true := by simp [contributes, hq, hb]
        rw [List.filter_cons_of_pos hq, List.filter_cons_of_pos hcon]
        simp only [List.foldl_cons, List.map_cons]
        rw [ih, insertNotification_map_key user acc n hq, if_pos hb]
      · have hng : isGroupNotif n = false := by
          rcases Bool.or_eq_false_iff.mp (Bool.not_eq_true _ ▸ hb : _ = false) with ⟨h1, h2⟩
          exact h1
        have hni : directIncluded user n = false := by
          rcases Bool.or_eq_false_iff.mp (Bool.not_eq_true _ ▸ hb : _ = false) with ⟨h1, h2⟩
          exact h2
        have hcon : contributes user n = false := by simp [contributes, hng, hni]
        rw [List.filter_cons_of_pos hq, List.filter_cons_of_neg (by simp [hcon])]
        simp only [List.foldl_cons]
        rw [insertNotification_skip user acc n hng hni, ih]
    · have hcon : contributes user n = false := by
        simp [contributes, Bool.not_eq_true _ ▸ hq]
      rw [List.filter_cons_of_neg (by simp [hq]), List.filter_cons_of_neg (by simp [hcon])]
      exact ih acc

/-- First-occurrence key insertion preserves freedom from duplicates. -/
theorem foldl_insertKey_nodup (ks : List String) (acc : List String)
    (h : acc.Nodup) : (ks.foldl insertKey acc).Nodup := by
  induction ks generalizing acc with
  | nil => exact h
  | cons k ks ih =>
    simp only [List.foldl_cons]
    apply ih
    by_cases hk : k ∈ acc
    · simpa [insertKey, hk] using h
    · simp only [insertKey, if_neg hk]
      rw [List.nodup_append]
      exact ⟨h, List.nodup_singleton k, fun a ha hmem => hk ((List.mem_singleton.mp hmem) ▸ ha)⟩

/-- C1: for every notification list and current user, the summary list
produced by `processNotifications` contains no two entries with the same
`conversationId`, and every entry's `unreadCount` is at least 1. -/
theorem rebuild_nodup_and_pos (l : List Notification) (user : Option User) :
    ((processNotifications l user).map keyCP).Nodup
    ∧ ∀ p ∈ processNotifications l user, 1 ≤ p.unreadCount := by
  constructor
  · have h0 : processNotifications l user
        = (l.filter qualifies).foldl (insertNotification user) [] := rfl
    rw [h0, foldl_insert_map_key user l []]
    exact foldl_insertKey_nodup _ _ (by simp)
  · exact foldl_insert_pos user (l.filter qualifies) [] (by simp)

/-- C1 witness: the demo list rebuilds to a duplicate-free summary list,
and its group summary, a member of that list, has a positive count. -/
theorem rebuild_nodup_and_pos_witness :
    ((processNotifications demoNotifs (some demoUser)).map keyCP).Nodup
    ∧ 1 ≤ demoPart.unreadCount :=
  ⟨(rebuild_nodup_and_pos demoNotifs (some demoUser)).1,
   (rebuild_nodup_and_pos demoNotifs (some demoUser)).2 demoPart (by decide)⟩

/-- C2: when a click's mark-read request fails and no other signal
arrived meanwhile, the summary set after recovery equals exactly the
rebuild of the unchanged notification list. -/
theorem click_failure_recovers_to_rebuild (notifications : List Notification)
    (user : Option User) (s : BarState) (cid : String)
    (h : s.clicking ≠ some cid) :
    (barStep notifications user
        (barStep notifications user s (BarEv.click cid))
        (BarEv.settleFail cid)).participants
      = processNotifications notifications user := by
  simp [barStep, h]

/-- C2 witness: concrete failed click on conversation c1 from the
initial state with the demo notification list. -/
theorem click_failure_recovers_to_rebuild_witness :
    (barStep demoNotifs (some demoUser)
        (barStep demoNotifs (some demoUser) barInit (BarEv.click "c1"))
        (BarEv.settleFail "c1")).participants
      = processNotifications demoNotifs (some demoUser) :=
  click_failure_recovers_to_rebuild demoNotifs (some demoUser) barInit "c1" (by decide)

/-- C3 counterexample: after opening conversation a and then
conversation b, a's request is still outstanding, yet a repeated open of
a is not suppressed: a second request for a is submitted. -/
theorem click_guard_interleaving_counterexample :
    "a" ∈ c3State.pending
    ∧ c3State.submitted = ["a", "b"]
    ∧ (barStep [] none c3State (BarEv.click "a")).submitted = ["a", "b", "a"] := by
  decide

/-- C3 amended: the click guard is a single slot holding the most
recently opened conversation: a repeated open of a conversation is
suppressed, with nothing submitted and the state unchanged, exactly
while the slot holds that conversation; opening a different conversation
overwrites the slot; and settling an outstanding request clears the slot
unconditionally, on success and failure alike. -/
theorem click_guard_single_slot (notifications : List Notification)
    (user : Option User) (s : BarState) (cid : String) :
    (s.clicking = some cid → barStep notifications user s (BarEv.click cid) = s)
    ∧ (cid ∈ s.pending →
        (barStep notifications user s (BarEv.settleOk cid)).clicking = none
        ∧ (barStep notifications user s (BarEv.settleFail cid)).clicking = none) := by
  constructor
  · intro h
    simp [barStep, h]
  · intro h
    constructor <;> simp [barStep, h]

/-- C3 witness: right after a first click on a, a repeated click on a is
suppressed, and a's settlement clears the guard. -/
theorem click_guard_single_slot_witness :
    barStep [] none c3WitState (BarEv.click "a") = c3WitState
    ∧ (barStep [] none c3WitState (BarEv.settleOk "a")).clicking = none :=
  ⟨(click_guard_single_slot [] none c3WitState "a").1 (by decide),
   ((click_guard_single_slot [] none c3WitState "a").2 (by decide)).1⟩

/-- C4: two unread MESSAGE notifications in the same group conversation
rebuild to exactly one GROUP summary whose display name is the
conversation's name with the Group Chat fallback, with no avatar and
unread count 2. -/
theorem rebuild_two_group_messages (user : Option User) (n1 n2 : Notification)
    (g1 g2 : Conversation) (cid : String) (hcid : cid ≠ "")
    (h1t : n1.type = "MESSAGE") (h1r : n1.read = false)
    (h1c : n1.conversationId = some cid) (h1g : n1.conversation = some g1)
    (h1gt : g1.type = "GROUP_MESSAGE")
    (h2t : n2.type = "MESSAGE") (h2r : n2.read = false)
    (h2c : n2.conversationId = some cid) (h2g : n2.conversation = some g2)
    (h2gt : g2.type = "GROUP_MESSAGE") :
    processNotifications [n1, n2] user =
      [{ conversationId := cid, profileId := "",
         name := jsOr g1.name "Group Chat", imageUrl := "",
         unreadCount := 2, conversationType := "GROUP_MESSAGE" }] := by
  have hq1 : qualifies n1 = true := by simp [qualifies, truthyStr, h1t, h1r, h1c, hcid]
  have hq2 : qualifies n2 = true := by simp [qualifies, truthyStr, h2t, h2r, h2c, hcid]
  have hg1 : isGroupNotif n1 = true := by simp [isGroupNotif, h1g, h1gt]
  have hg2 : isGroupNotif n2 = true := by simp [isGroupNotif, h2g, h2gt]
  simp [processNotifications, List.filter, hq1, hq2, insertNotification, h1c, h2c,
    hg1, hg2, containsKey, bumpUnread, groupEntry, groupName, h1g]

/-- C4 witness: the spec's scenario with the Team group conversation. -/
theorem rebuild_two_group_messages_witness :
    processNotifications [demoG1, demoG2] none = [demoPart] :=
  (rebuild_two_group_messages none demoG1 demoG2 demoConvG demoConvG "c1"
    (by decide) rfl rfl rfl rfl rfl rfl rfl rfl rfl rfl).trans (by decide)

/-- C5: a direct-message (non-group) notification is included only when
`triggeredBy` is present with a name differing from the current user's
full name and first name: when `triggeredBy` is absent, or its name
equals the user's full name or first name, the notification contributes
nothing to the rebuilt summary list. -/
theorem rebuild_direct_self_excluded (user : Option User) (n : Notification)
    (l1 l2 : List Notification)
    (hng : isGroupNotif n = false)
    (hexcl : n.triggeredBy = none
      ∨ ∃ t, n.triggeredBy = some t
          ∧ (Option.bind user User.fullName = some t.name
             ∨ Option.bind user User.firstName = some t.name)) :
    processNotifications (l1 ++ n :: l2) user
      = processNotifications (l1 ++ l2) user := by
  have hni : directIncluded user n = false := by
    rcases hexcl with h | ⟨t, ht, h | h⟩
    · simp [directIncluded, h]
    · simp [directIncluded, ht, jsStrNe, h]
    · simp [directIncluded, ht, jsStrNe, h]
  by_cases hq : qualifies n = true
  · have hskip : ∀ acc, insertNotification user acc n = acc := fun acc =>
      insertNotification_skip user acc n hng hni
    simp [processNotifications, List.filter_append, List.filter_cons, hq,
      List.foldl_append, hskip]
  · have hq2 : qualifies n = false := by simpa using hq
    simp [processNotifications, List.filter_append, List.filter_cons, hq2]

/-- C5 witness: a direct message whose sender name equals the demo
user's first name is excluded from the rebuild. -/
theorem rebuild_direct_self_excluded_witness :
    processNotifications [demoSelf] (some demoUser)
      = processNotifications [] (some demoUser) :=
  rebuild_direct_self_excluded (some demoUser) demoSelf [] [] (by decide)
    (Or.inr ⟨demoSelfTrig, rfl, Or.inr rfl⟩)

/-- C6: a notification of type other than MESSAGE, or already read, or
with no conversationId, contributes nothing to the rebuilt summary list:
deleting it from the input leaves the output unchanged, so it neither
creates a summary nor increments any count. -/
theorem rebuild_nonqualifying_contribute_nothing (user : Option User)
    (n : Notification) (l1 l2 : List Notification)
    (h : n.type ≠ "MESSAGE" ∨ n.read = true ∨ n.conversationId = none) :
    processNotifications (l1 ++ n :: l2) user
      = processNotifications (l1 ++ l2) user := by
  have hq : qualifies n = false := by
    rcases h with h | h | h
    · simp [qualifies, h]
    · simp [qualifies, h]
    · simp [qualifies, truthyStr, h]
  simp [processNotifications, List.filter_append, List.filter_cons, hq]

/-- C6 witness: an already-read notification contributes nothing. -/
theorem rebuild_nonqualifying_contribute_nothing_witness :
    processNotifications [demoG1, demoRead] none
      = processNotifications [demoG1] none :=
  rebuild_nonqualifying_contribute_nothing none demoRead [demoG1] []
    (Or.inr (Or.inl rfl))

/-- C7: the key sequence of the rebuilt summary list is the
first-occurrence deduplication, in input order, of the keys of the
contributing notifications; no other sorting is applied. -/
theorem rebuild_output_order (l : List Notification) (user : Option User) :
    (processNotifications l user).map keyCP
      = firstOccKeys ((l.filter (contributes user)).map keyOf) := by
  have h0 : processNotifications l user
      = (l.filter qualifies).foldl (insertNotification user) [] := rfl
  rw [h0, foldl_insert_map_key user l []]
  rfl

/-- C8: the marked-read handler removes every summary of the given
conversation, keeps each other summary, returns a sublist of the input
(order untouched), is idempotent, and is a no-op when no summary
matches. -/
theorem mark_read_removal_idempotent (cid : String)
    (ps : List ConversationParticipant) :
    (∀ p ∈ handleConversationMarkRead cid ps, p.conversationId ≠ cid)
    ∧ (∀ p ∈ ps, p.conversationId ≠ cid → p ∈ handleConversationMarkRead cid ps)
    ∧ (handleConversationMarkRead cid ps).Sublist ps
    ∧ handleConversationMarkRead cid (handleConversationMarkRead cid ps)
        = handleConversationMarkRead cid ps
    ∧ ((∀ p ∈ ps, p.conversationId ≠ cid) → handleConversationMarkRead cid ps = ps) := by
  refine ⟨?_, ?_, ?_, ?_, ?_⟩
  · intro p hp
    have hmem := List.of_mem_filter hp
    simpa using hmem
  · intro p hp hne
    exact List.mem_filter.mpr ⟨hp, by simpa using hne⟩
  · exact List.filter_sublist ps
  · simp [handleConversationMarkRead, List.filter_filter]
  · intro h
    exact List.filter_eq_self.mpr fun p hp => by simpa using h p hp

/-- C8 witness: removing c1 from the demo summaries twice equals
removing it once, and removing an absent conversation is a no-op. -/
theorem mark_read_removal_idempotent_witness :
    handleConversationMarkRead "c1" (handleConversationMarkRead "c1" demoParts)
      = handleConversationMarkRead "c1" demoParts
    ∧ handleConversationMarkRead "c9" demoParts = demoParts :=
  ⟨(mark_read_removal_idempotent "c1" demoParts).2.2.2.1,
   (mark_read_removal_idempotent "c9" demoParts).2.2.2.2 (by decide)⟩

/-- C9: a click and a failed settlement never navigate; only a
successful settlement can navigate, appending that conversation to the
navigation log. -/
theorem navigation_only_on_success (notifications : List Notification)
    (user : Option User) (s : BarState) (cid : String) :
    (barStep notifications user s (BarEv.click cid)).navigations = s.navigations
    ∧ (barStep notifications user s (BarEv.settleFail cid)).navigations = s.navigations
    ∧ ((barStep notifications user s (BarEv.settleOk cid)).navigations = s.navigations
        ∨ (barStep notifications user s (BarEv.settleOk cid)).navigations
            = s.navigations ++ [cid]) := by
  refine ⟨?_, ?_, ?_⟩
  · by_cases h : s.clicking = some cid <;> simp [barStep, h]
  · by_cases h : cid ∈ s.pending <;> simp [barStep, h]
  · by_cases h : cid ∈ s.pending
    · exact Or.inr (by simp [barStep, h])
    · exact Or.inl (by simp [barStep, h])

/-- C10: starting from any nonnegative unread count, any sequence of
markAsRead and markAllAsRead calls leaves the count nonnegative: the
decrement clamps at zero and mark-all resets to zero. -/
theorem unread_count_nonneg (c : Int) (h : 0 ≤ c) (ops : List DropdownOp) :
    0 ≤ dropdownRun c ops := by
  induction ops generalizing c with
  | nil => exact h
  | cons op ops ih =>
    have hstep : 0 ≤ dropdownApply c op := by
      cases op
      · exact le_max_left 0 _
      · exact le_refl 0
    exact ih _ hstep

/-- C10 witness: three dropdown calls from a zero count stay
nonnegative. -/
theorem unread_count_nonneg_witness :
    0 ≤ dropdownRun 0 [DropdownOp.markOne, DropdownOp.markAll, DropdownOp.markOne] :=
  unread_count_nonneg 0 (by decide)
    [DropdownOp.markOne, DropdownOp.markAll, DropdownOp.markOne]

end Crystal
